import Mathlib

set_option maxRecDepth 100000

/-!
Shallow embedding of `src/shmht.c` (the shared-memory hash table binding of
ext_shmht) together with spec-modelled definitions for the storage engine
declared in `hashtable.h`, which is not part of the sources.  The embedding
idealizes the operating system: `open`, `fstat`, `mmap`, `lseek`, `write`,
`munmap` and `close` always succeed, and `flock` acquisition always succeeds.
Lock acquisitions, accesses to the shared mapping and visitor callback
invocations are recorded as explicit event traces so that the locking
discipline of each operation can be stated.
-/

namespace Shmht

/-- Keys and values are arbitrary byte blobs. -/
abbrev Bytes := List Nat

/-- Modelled from the spec (`hashtable.h` is not in the sources): one slot of
the arena is empty, tombstoned, or occupied by a key/value pair. -/
inductive Slot where
  | empty
  | tomb
  | occupied (key value : Bytes)
deriving DecidableEq

/-- The persisted contents of the backing file, as observed through the
mapping: whether the header magic is valid, the stored original capacity, the
live-entry count, the slot arena, and the file size in bytes.  For a file with
an invalid header the capacity/count/slot fields are junk and are never kept
by any operation. -/
structure FileState where
  magicValid : Bool
  origCapacity : Nat
  count : Nat
  slots : List Slot
  size : Nat
deriving DecidableEq

/-- Modelled from the spec: size of the table header (`sizeof(hashtable)`),
layout `magic 8 + capacity 8 + entry_count 8 + reserved`. -/
def headerSize : Nat := 32

/-- Modelled from the spec: the fixed slot stride, large enough for the
configured maximum key+value size. -/
def slotStride : Nat := 1024

/-- Modelled from the spec: `ht_memory_size(capacity)` is the pure function
`header_size + capacity * slot_size`. -/
def htMemorySize (cap : Nat) : Nat := headerSize + cap * slotStride

/-- Modelled from the spec: `ht_is_valid` checks the header validity marker. -/
def htIsValid (f : FileState) : Bool := f.magicValid

/-- Well-formedness of a persisted file: a valid header implies a positive
capacity, the file has exactly the required length for that capacity, and the
arena has one slot per unit of capacity (spec section 3, header invariant). -/
def WellFormed (f : FileState) : Prop :=
  f.magicValid = true →
    0 < f.origCapacity ∧ f.size = htMemorySize f.origCapacity ∧
      f.slots.length = f.origCapacity

/-- Modelled from the spec: `ht_init(ht, capacity, force_init)` writes a fresh
header and empties all slots when `force_init` is set or the existing header is
invalid; otherwise it leaves the table untouched.  The file size is not
changed by initialization. -/
def htInit (f : FileState) (cap : Nat) (forceInit : Bool) : FileState :=
  if forceInit = true ∨ htIsValid f = false then
    { magicValid := true, origCapacity := cap, count := 0,
      slots := List.replicate cap Slot.empty, size := f.size }
  else f

/-- Modelled from the spec: the hash of a key (the source's hash function is
in `hashtable.h`; any deterministic function of the key bytes realizes the
spec, we use the byte sum). -/
def htHash (key : Bytes) : Nat := key.foldl (fun a b => a + b) 0

/-- Modelled from the spec: the linear probe sequence starting at
`hash mod capacity`, wrapping once around the arena. -/
def probeSeq (cap : Nat) (key : Bytes) : List Nat :=
  (List.range cap).map (fun j => (htHash key + j) % cap)

/-- Modelled from the spec: walk a probe sequence looking for an occupied slot
whose key matches; tombstones are skipped, the first empty slot is a
definitive miss. -/
def probeFindMatch (slots : List Slot) (key : Bytes) : List Nat → Option Nat
  | [] => none
  | i :: rest =>
    match slots.getD i Slot.empty with
    | Slot.empty => none
    | Slot.tomb => probeFindMatch slots key rest
    | Slot.occupied k _ => if k = key then some i else probeFindMatch slots key rest

/-- Modelled from the spec: walk a probe sequence looking for the first
empty-or-tombstoned slot (used by insertion). -/
def probeFindFree (slots : List Slot) : List Nat → Option Nat
  | [] => none
  | i :: rest =>
    match slots.getD i Slot.empty with
    | Slot.occupied _ _ => probeFindFree slots rest
    | _ => some i

/-- Modelled from the spec: `ht_get` returns the value stored under a key, or
none on a miss. -/
def htGet (f : FileState) (key : Bytes) : Option Bytes :=
  match probeFindMatch f.slots key (probeSeq f.origCapacity key) with
  | some i =>
    match f.slots.getD i Slot.empty with
    | Slot.occupied _ v => some v
    | _ => none
  | none => none

/-- Modelled from the spec: `ht_set` overwrites the value of a matching
occupied slot, otherwise occupies the first empty-or-tombstoned slot of the
probe sequence (incrementing the live count), and reports failure when a whole
wrap finds no usable slot. -/
def htSet (f : FileState) (key value : Bytes) : FileState × Bool :=
  match probeFindMatch f.slots key (probeSeq f.origCapacity key) with
  | some i => ({ f with slots := f.slots.set i (Slot.occupied key value) }, true)
  | none =>
    match probeFindFree f.slots (probeSeq f.origCapacity key) with
    | some i =>
      ({ f with slots := f.slots.set i (Slot.occupied key value),
                count := f.count + 1 }, true)
    | none => (f, false)

/-- Modelled from the spec: `ht_remove` tombstones a matching slot and
decrements the live count; a miss reports false without error. -/
def htRemove (f : FileState) (key : Bytes) : FileState × Bool :=
  match probeFindMatch f.slots key (probeSeq f.origCapacity key) with
  | some i => ({ f with slots := f.slots.set i Slot.tomb, count := f.count - 1 }, true)
  | none => (f, false)

/-- Modelled from the spec: `ht_destroy` (teardown) returns the live-entry
count as a diagnostic and performs no mutation of the table. -/
def htDestroy (f : FileState) : Nat := f.count

/-- Modelled from the spec: the entries an iterator yields, every occupied
slot in arena-index order. -/
def occupiedEntries (f : FileState) : List (Bytes × Bytes) :=
  f.slots.filterMap (fun s =>
    match s with
    | Slot.occupied k v => some (k, v)
    | _ => none)

/-- One entry of the process-local handle registry `ht_map` (struct mapnode,
src/shmht.c lines 14-18).  A slot with no node corresponds to `ht == NULL`. -/
structure MapNode where
  fd : Nat
  memSize : Nat
deriving DecidableEq

/-- `max_ht_map_entries` (src/shmht.c line 20). -/
def maxHtMapEntries : Nat := 2048

/-- The process and file state an operation acts on: the persisted backing
file, the registry `ht_map` (slot index to node, none when free), the global
round-robin cursor `ht_idx`, and a counter supplying fresh file descriptors. -/
structure World where
  file : FileState
  reg : Nat → Option MapNode
  htIdx : Nat
  nextFd : Nat

/-- Exceptions a Python visitor callback can raise. -/
inductive PyExc where
  | exc (code : Nat)
deriving DecidableEq

/-- The errors `shmht.c` raises through `shmht_error`. -/
inductive ShmhtError where
  | capacityMismatch (requested stored : Nat)
  | capacityRequired
  | registryFull
  | insertFailed (key : Bytes)
  | invalidHandle (idx : Int)
deriving DecidableEq

/-- Events recorded by the embedding: taking/releasing the `flock` on a file
descriptor, an access (read or write) of the shared mapping, a visitor
callback invocation during foreach, and the construction of the returned
Python string from the value pointer into the mapping (`PyString_FromStringAndSize`
on `value->str`, src/shmht.c line 231), which reads the mapping. -/
inductive Event where
  | lock (fd : Nat)
  | unlock (fd : Nat)
  | touch
  | visitorCall
  | copyValueOut
deriving DecidableEq

/-- Contribution of one event to the number of lock holds. -/
def lockDelta : Event → Int
  | Event.lock _ => 1
  | Event.unlock _ => -1
  | _ => 0

/-- Number of lock holds remaining after a trace. -/
def heldAfter (tr : List Event) : Int := (tr.map lockDelta).sum

/-- True when no access of the shared mapping happens before the first lock
acquisition of the trace. -/
def firstTouchLocked : List Event → Bool
  | [] => true
  | Event.lock _ :: _ => true
  | Event.touch :: _ => false
  | Event.copyValueOut :: _ => false
  | _ :: tl => firstTouchLocked tl

/-- True when every lock and unlock event of the trace targets the given file
descriptor (all operations use the one whole-file lock). -/
def locksOnly (fd : Nat) (tr : List Event) : Bool :=
  tr.all (fun e =>
    match e with
    | Event.lock f => f == fd
    | Event.unlock f => f == fd
    | _ => true)

/-- Auxiliary scan: every `copyValueOut` of the trace happens while no lock is
held (the running hold count is not positive). -/
def copyOutsideGuardAux : Int → List Event → Bool
  | _, [] => true
  | h, Event.copyValueOut :: tl => decide (h ≤ 0) && copyOutsideGuardAux h tl
  | h, e :: tl => copyOutsideGuardAux (h + lockDelta e) tl

/-- True when every read of value contents out of the mapping occurs outside
the guard bracket. -/
def copyOutsideGuard (tr : List Event) : Bool := copyOutsideGuardAux 0 tr

/-- Number of visitor callback invocations in a trace. -/
def visitorCallCount (tr : List Event) : Nat :=
  tr.countP (fun e =>
    match e with
    | Event.visitorCall => true
    | _ => false)

/-- Embedding of the registry slot search of `shmht_open` (src/shmht.c lines
146-153).  The C loop is
`for (count = 0; count < max; count++) { ht_idx = (ht_idx+1) % max; count += 1; if (free) break; }`:
`count` is incremented both by the loop update and inside the body, so each
probed slot costs two ticks of `count`.  The argument of this function is the
remaining budget `max - count`; the loop condition `count < max` is `0 < budget`,
a probe that continues spends two ticks.  It returns the found free slot (none
when the budget is exhausted, which is exactly the `count >= max` error test
of line 154) together with the final value of the global `ht_idx`. -/
def searchLoop (occ : Nat → Bool) : Nat → Nat → Option Nat × Nat
  | idx, 0 => (none, idx)
  | idx, 1 =>
    let idx1 := (idx + 1) % maxHtMapEntries
    if occ idx1 then (none, idx1)
    else (some idx1, idx1)
  | idx, b + 2 =>
    let idx1 := (idx + 1) % maxHtMapEntries
    if occ idx1 then searchLoop occ idx1 b
    else (some idx1, idx1)

/-- Embedding of the capacity argument conversion of `shmht_open`
(src/shmht.c lines 78-83): `i_capacity` is a `size_t` initialized to 0, but
`PyArg_ParseTuple` with the `"i"` converter stores a 32-bit signed int through
the pointer, so on the little-endian LP64 target only the low four bytes are
written and the resulting `size_t capacity = i_capacity` holds the two's
complement bit pattern of the argument zero-extended to 64 bits, i.e. the
argument reduced modulo 2^32. -/
def parseCapacity (i : Int) : Nat := (i % ((2 : Int) ^ 32)).toNat

/-- Embedding of the creation tail of `shmht_open` (src/shmht.c lines
119-172), entered with the lock held and `pre` the events so far: the
capacity-required check, the file extension to `ht_memory_size(capacity)` when
shorter (lines 126-136, a write through the descriptor, not the mapping), the
full mapping plus `ht_init` (lines 138-145, a mapping access), the registry
slot search, and either the registry-capacity failure of line 154 (the
`create_failed` path unlocks, closes the descriptor and unmaps, but the
`ht_init` effects persist in the file through the shared mapping) or the store
into the found registry slot and the success return (lines 158-163). -/
def openCreate (w0 : World) (fd : Nat) (capacity : Nat) (forceInit : Bool)
    (pre : List Event) : List Event × World × Except ShmhtError Nat :=
  if capacity = 0 then
    (pre ++ [Event.unlock fd], w0, Except.error ShmhtError.capacityRequired)
  else
    let memSize := htMemorySize capacity
    let file1 := if w0.file.size < memSize then { w0.file with size := memSize } else w0.file
    let file2 := htInit file1 capacity forceInit
    let res := searchLoop (fun j => (w0.reg j).isSome) w0.htIdx maxHtMapEntries
    match res.1 with
    | none =>
      (pre ++ [Event.touch, Event.unlock fd],
       { w0 with file := file2, htIdx := res.2 },
       Except.error ShmhtError.registryFull)
    | some i =>
      (pre ++ [Event.touch, Event.unlock fd],
       { w0 with file := file2, htIdx := i,
                 reg := fun j => if j = i then some ⟨fd, memSize⟩ else w0.reg j },
       Except.ok i)

/-- Embedding of `shmht_open` after argument conversion (src/shmht.c lines
85-172), with the capacity already converted to an unsigned size: open the
file (a fresh descriptor), lock it, and when `force_init` is 0 and the file is
large enough to hold a header (line 98), map the header (a mapping access) and
check its validity; a valid header whose stored capacity is exceeded by a
non-zero request fails (lines 108-111), otherwise the stored capacity becomes
authoritative (line 112); then the creation tail runs. -/
def shmhtOpenCore (w : World) (capArg : Nat) (forceInit : Bool) :
    List Event × World × Except ShmhtError Nat :=
  let fd := w.nextFd
  let w0 : World := { w with nextFd := w.nextFd + 1 }
  if forceInit = false ∧ headerSize ≤ w.file.size then
    if htIsValid w.file then
      if capArg ≠ 0 ∧ w.file.origCapacity < capArg then
        ([Event.lock fd, Event.touch, Event.unlock fd], w0,
         Except.error (ShmhtError.capacityMismatch capArg w.file.origCapacity))
      else
        openCreate w0 fd w.file.origCapacity forceInit [Event.lock fd, Event.touch]
    else
      openCreate w0 fd capArg forceInit [Event.lock fd, Event.touch]
  else
    openCreate w0 fd capArg forceInit [Event.lock fd]

/-- Embedding of `shmht_open` (src/shmht.c lines 71-173): argument conversion
followed by the open/validate/create logic. -/
def shmhtOpen (w : World) (capArg : Int) (forceInit : Bool) :
    List Event × World × Except ShmhtError Nat :=
  shmhtOpenCore w (parseCapacity capArg) forceInit

/-- Embedding of the handle check shared by close/getval/setval/remove/foreach
(`idx < 0 || idx >= max_ht_map_entries || ht_map[idx].ht == NULL`). -/
def regLookup (w : World) (idx : Int) : Option MapNode :=
  if idx < 0 ∨ (maxHtMapEntries : Int) ≤ idx then none
  else w.reg idx.toNat

/-- Embedding of `shmht_close` (src/shmht.c lines 175-204): an invalid handle
fails; otherwise `ht_destroy` reports the live count (discarded), the mapping
is unmapped and the descriptor closed (the backing file is deliberately not
deleted, lines 195-197), the registry slot alone is zeroed (line 201), and the
call returns True.  No lock is taken and the persisted file is untouched. -/
def shmhtClose (w : World) (idx : Int) : World × Except ShmhtError Bool :=
  match regLookup w idx with
  | none => (w, Except.error (ShmhtError.invalidHandle idx))
  | some _ =>
    ({ w with reg := fun j => if j = idx.toNat then none else w.reg j },
     Except.ok true)

/-- Embedding of `shmht_getval` (src/shmht.c lines 206-232): an invalid handle
fails before any lock or access; otherwise the lock is taken, `ht_get` probes
the mapping, and on a miss the lock is released and None returned, while on a
hit the lock is released first (line 230) and the returned byte string is then
built from the value pointer into the mapping (line 231). -/
def shmhtGetval (w : World) (idx : Int) (key : Bytes) :
    List Event × Except ShmhtError (Option Bytes) :=
  match regLookup w idx with
  | none => ([], Except.error (ShmhtError.invalidHandle idx))
  | some node =>
    match htGet w.file key with
    | none => ([Event.lock node.fd, Event.touch, Event.unlock node.fd], Except.ok none)
    | some v =>
      ([Event.lock node.fd, Event.touch, Event.unlock node.fd, Event.copyValueOut],
       Except.ok (some v))

/-- Embedding of `shmht_setval` (src/shmht.c lines 234-261): an invalid handle
fails before any lock or access; otherwise `ht_set` runs under the lock and a
False result is turned into an insert-failed error after the unlock. -/
def shmhtSetval (w : World) (idx : Int) (key value : Bytes) :
    List Event × World × Except ShmhtError Bool :=
  match regLookup w idx with
  | none => ([], w, Except.error (ShmhtError.invalidHandle idx))
  | some node =>
    let r := htSet w.file key value
    ([Event.lock node.fd, Event.touch, Event.unlock node.fd],
     { w with file := r.1 },
     if r.2 then Except.ok true else Except.error (ShmhtError.insertFailed key))

/-- Embedding of `shmht_remove` (src/shmht.c lines 263-286): an invalid handle
fails before any lock or access; otherwise `ht_remove` runs under the lock and
its boolean is returned. -/
def shmhtRemove (w : World) (idx : Int) (key : Bytes) :
    List Event × World × Except ShmhtError Bool :=
  match regLookup w idx with
  | none => ([], w, Except.error (ShmhtError.invalidHandle idx))
  | some node =>
    let r := htRemove w.file key
    ([Event.lock node.fd, Event.touch, Event.unlock node.fd],
     { w with file := r.1 },
     Except.ok r.2)

/-- Trace of one foreach iteration pass: each occupied entry costs one mapping
access (the iterator reads the slot and `Py_BuildValue` copies the key and
value bytes out of the mapping) and one visitor invocation. -/
def iterEvents : List (Bytes × Bytes) → List Event
  | [] => []
  | _ :: tl => Event.touch :: Event.visitorCall :: iterEvents tl

/-- The Python error indicator left pending after the loop of `shmht_foreach`:
`PyEval_CallObject`'s result is ignored (src/shmht.c line 314), so every entry
is visited and a raising visitor merely leaves the most recent exception
pending. -/
def pendingAfter (visitor : Bytes → Bytes → Except PyExc Unit) :
    List (Bytes × Bytes) → Option PyExc → Option PyExc
  | [], acc => acc
  | kv :: tl, acc =>
    match visitor kv.1 kv.2 with
    | Except.error e => pendingAfter visitor tl (some e)
    | Except.ok _ => pendingAfter visitor tl acc

/-- Embedding of `shmht_foreach` (src/shmht.c lines 288-322): an invalid
handle fails before any lock or access; otherwise the iterator is built, the
lock is taken (line 310), every occupied entry is read and handed to the
visitor whose result is discarded (line 314), the lock is released (line 317)
and the call returns None (success) regardless of visitor failures; a raised
exception is only left pending in the interpreter. -/
def shmhtForeach (w : World) (idx : Int)
    (visitor : Bytes → Bytes → Except PyExc Unit) :
    List Event × Option PyExc × Except ShmhtError Unit :=
  match regLookup w idx with
  | none => ([], none, Except.error (ShmhtError.invalidHandle idx))
  | some node =>
    let entries := occupiedEntries w.file
    ([Event.lock node.fd] ++ iterEvents entries ++ [Event.unlock node.fd],
     pendingAfter visitor entries none,
     Except.ok ())

/-- The file descriptor an operation on a handle locks: the descriptor stored
in the handle's registry node (zero when the handle is invalid and no lock is
taken at all). -/
def opFd (w : World) (idx : Int) : Nat :=
  match regLookup w idx with
  | some n => n.fd
  | none => 0

/-- Example: a well-formed empty table of capacity 5. -/
def exFile5 : FileState :=
  { magicValid := true, origCapacity := 5, count := 0,
    slots := List.replicate 5 Slot.empty, size := htMemorySize 5 }

/-- Example: a well-formed table of capacity 1 holding key `[1]`, value `[2]`. -/
def exFile1 : FileState :=
  { magicValid := true, origCapacity := 1, count := 1,
    slots := [Slot.occupied [1] [2]], size := htMemorySize 1 }

/-- Example: a well-formed table of capacity 2 holding keys `[1]` and `[2]`. -/
def exFile2 : FileState :=
  { magicValid := true, origCapacity := 2, count := 2,
    slots := [Slot.occupied [1] [10], Slot.occupied [2] [20]], size := htMemorySize 2 }

/-- Example: a raw file with no valid header. -/
def exFileRaw : FileState :=
  { magicValid := false, origCapacity := 0, count := 0, slots := [], size := 0 }

/-- Example: a registry with every slot occupied. -/
def regFull : Nat → Option MapNode := fun _ => some ⟨0, 0⟩

/-- Example: a registry whose slots 0 to 1023 are occupied and 1024 to 2047
are free. -/
def regHalf : Nat → Option MapNode := fun j => if j < 1024 then some ⟨0, 0⟩ else none

/-- Example: a registry with only slot 0 occupied. -/
def regOne : Nat → Option MapNode := fun j => if j = 0 then some ⟨7, htMemorySize 2⟩ else none

/-- Example: a process holding one open segment over the two-entry table. -/
def wOne : World := { file := exFile2, reg := regOne, htIdx := 0, nextFd := 8 }

/-- Example: a process with an exhausted registry over a valid capacity-5 table. -/
def wFullValid : World := { file := exFile5, reg := regFull, htIdx := 2047, nextFd := 3 }

/-- Example: a process whose registry has 1024 free slots but whose cursor sits
just before the occupied half, over a raw file. -/
def wHalf : World := { file := exFileRaw, reg := regHalf, htIdx := 2047, nextFd := 3 }

/-- Example: a process with an exhausted registry over the one-entry table. -/
def wFullOne : World := { file := exFile1, reg := regFull, htIdx := 0, nextFd := 4 }

/-- Example: a visitor that raises on every entry. -/
def failVisitor : Bytes → Bytes → Except PyExc Unit := fun _ _ => Except.error (PyExc.exc 0)

end Shmht

deriving instance DecidableEq for Except

namespace Shmht

lemma openCreate_zero (w0 : World) (fd : Nat) (fi : Bool) (pre : List Event) :
    openCreate w0 fd 0 fi pre =
      (pre ++ [Event.unlock fd], w0, Except.error ShmhtError.capacityRequired) := by
  simp [openCreate]

lemma shmhtClose_of_none (w : World) (idx : Int) (h : regLookup w idx = none) :
    shmhtClose w idx = (w, Except.error (ShmhtError.invalidHandle idx)) := by
  unfold shmhtClose
  rw [h]

lemma regLookup_eq_none (w : World) (idx : Int)
    (h : idx < 0 ∨ (maxHtMapEntries : Int) ≤ idx ∨ w.reg idx.toNat = none) :
    regLookup w idx = none := by
  unfold regLookup
  rcases h with h | h | h
  · rw [if_pos (Or.inl h)]
  · rw [if_pos (Or.inr h)]
  · split_ifs with hc
    · rfl
    · exact h

/-- C7: for every open call in which a new table must be created (`force_init`
is true, or no valid header exists in the file), a requested capacity of zero
makes the open fail with the capacity-required validation error, the persisted
file untouched and no registry slot or handle created. -/
theorem C7_create_requires_capacity (w : World) (req : Nat) (fi : Bool)
    (hnew : fi = true ∨ w.file.size < headerSize ∨ htIsValid w.file = false)
    (hreq : req = 0) :
    (shmhtOpenCore w req fi).2.2 = Except.error ShmhtError.capacityRequired ∧
    (shmhtOpenCore w req fi).2.1.file = w.file ∧
    (shmhtOpenCore w req fi).2.1.reg = w.reg ∧
    (shmhtOpenCore w req fi).2.1.htIdx = w.htIdx := by
  subst hreq
  unfold shmhtOpenCore
  split_ifs with hA hB hC
  · exact absurd rfl hC.1
  · rcases hnew with h | h | h
    · rw [h] at hA
      exact absurd hA.1 (by simp)
    · exact absurd hA.2 (Nat.not_le.mpr h)
    · rw [h] at hB
      exact absurd hB (by simp)
  · rw [openCreate_zero]
    exact ⟨rfl, rfl, rfl, rfl⟩
  · rw [openCreate_zero]
    exact ⟨rfl, rfl, rfl, rfl⟩

/-- Witness for C7 at a concrete input: forced re-creation with capacity 0 on
a fresh process fails with the capacity-required error. -/
theorem C7_create_requires_capacity_witness :
    (shmhtOpenCore wHalf 0 true).2.2 = Except.error ShmhtError.capacityRequired ∧
    (shmhtOpenCore wHalf 0 true).2.1.file = wHalf.file :=
  ⟨(C7_create_requires_capacity wHalf 0 true (Or.inl rfl) rfl).1,
   (C7_create_requires_capacity wHalf 0 true (Or.inl rfl) rfl).2.1⟩

/-- C6: close on a valid handle returns success, leaves the persisted file
byte-for-byte unchanged (close never deletes the backing file nor mutates the
header or slots), clears exactly the one registry slot, and changes nothing
else in the process state. -/
theorem C6_close_preserves_file (w : World) (idx : Int) (node : MapNode)
    (h : regLookup w idx = some node) :
    (shmhtClose w idx).2 = Except.ok true ∧
    (shmhtClose w idx).1.file = w.file ∧
    (shmhtClose w idx).1.reg idx.toNat = none ∧
    (∀ j, j ≠ idx.toNat → (shmhtClose w idx).1.reg j = w.reg j) ∧
    (shmhtClose w idx).1.htIdx = w.htIdx ∧
    (shmhtClose w idx).1.nextFd = w.nextFd := by
  unfold shmhtClose
  rw [h]
  refine ⟨rfl, rfl, by simp, ?_, rfl, rfl⟩
  intro j hj
  simp [hj]

/-- Witness for C6 at a concrete input: closing handle 0 of the one-segment
process succeeds, preserves the file and touches no other registry slot. -/
theorem C6_close_preserves_file_witness :
    (shmhtClose wOne 0).2 = Except.ok true ∧
    (shmhtClose wOne 0).1.file = wOne.file ∧
    (shmhtClose wOne 0).1.reg 0 = none ∧
    (shmhtClose wOne 0).1.reg 5 = wOne.reg 5 := by
  have h := C6_close_preserves_file wOne 0 ⟨7, htMemorySize 2⟩ (by decide)
  exact ⟨h.1, h.2.1, h.2.2.1, h.2.2.2.1 5 (by decide)⟩

/-- C5: every operation called with a negative, out-of-range or unallocated
handle fails with the invalid-handle error without any lock, mapping access or
state change; and after a successful close the handle is invalid for all
subsequent operations, a second close included. -/
theorem C5_invalid_handle_safe :
    (∀ w idx key value vis,
       (idx < 0 ∨ (maxHtMapEntries : Int) ≤ idx ∨ w.reg idx.toNat = none) →
       shmhtClose w idx = (w, Except.error (ShmhtError.invalidHandle idx)) ∧
       shmhtGetval w idx key = ([], Except.error (ShmhtError.invalidHandle idx)) ∧
       shmhtSetval w idx key value = ([], w, Except.error (ShmhtError.invalidHandle idx)) ∧
       shmhtRemove w idx key = ([], w, Except.error (ShmhtError.invalidHandle idx)) ∧
       shmhtForeach w idx vis = ([], none, Except.error (ShmhtError.invalidHandle idx))) ∧
    (∀ w idx node key, regLookup w idx = some node →
       (shmhtClose w idx).2 = Except.ok true ∧
       shmhtClose (shmhtClose w idx).1 idx =
         ((shmhtClose w idx).1, Except.error (ShmhtError.invalidHandle idx)) ∧
       shmhtGetval (shmhtClose w idx).1 idx key =
         ([], Except.error (ShmhtError.invalidHandle idx))) := by
  constructor
  · intro w idx key value vis h
    have hn := regLookup_eq_none w idx h
    exact ⟨by simp [shmhtClose, hn], by simp [shmhtGetval, hn],
           by simp [shmhtSetval, hn], by simp [shmhtRemove, hn],
           by simp [shmhtForeach, hn]⟩
  · intro w idx node key h
    have hclose : shmhtClose w idx =
        ({ w with reg := fun j => if j = idx.toNat then none else w.reg j },
         Except.ok true) := by
      unfold shmhtClose
      rw [h]
    have hn : regLookup (shmhtClose w idx).1 idx = none := by
      apply regLookup_eq_none
      refine Or.inr (Or.inr ?_)
      rw [hclose]
      simp
    exact ⟨by rw [hclose], shmhtClose_of_none _ idx hn, by simp [shmhtGetval, hn]⟩

/-- Witness for C5 at concrete inputs: an unallocated handle is rejected by
getval, and a close followed by a second close of the same handle fails with
the invalid-handle error. -/
theorem C5_invalid_handle_safe_witness :
    shmhtGetval wOne 3 [] = ([], Except.error (ShmhtError.invalidHandle 3)) ∧
    (shmhtClose wOne 0).2 = Except.ok true ∧
    shmhtClose (shmhtClose wOne 0).1 0 =
      ((shmhtClose wOne 0).1, Except.error (ShmhtError.invalidHandle 0)) := by
  have h1 := (C5_invalid_handle_safe.1 wOne 3 [] [] failVisitor (by decide)).2.1
  have h2 := C5_invalid_handle_safe.2 wOne 0 ⟨7, htMemorySize 2⟩ [] (by decide)
  exact ⟨h1, h2.1, h2.2.1⟩

lemma heldAfter_append (a b : List Event) : heldAfter (a ++ b) = heldAfter a + heldAfter b := by
  simp [heldAfter]

lemma heldAfter_cons (e : Event) (tr : List Event) :
    heldAfter (e :: tr) = lockDelta e + heldAfter tr := by
  simp [heldAfter]

lemma heldAfter_iterEvents (l : List (Bytes × Bytes)) : heldAfter (iterEvents l) = 0 := by
  induction l with
  | nil => rfl
  | cons hd tl ih => simp [iterEvents, heldAfter, lockDelta] at ih ⊢; exact ih

lemma locksOnly_append (fd : Nat) (a b : List Event) :
    locksOnly fd (a ++ b) = (locksOnly fd a && locksOnly fd b) := by
  simp [locksOnly, List.all_append]

lemma locksOnly_iterEvents (fd : Nat) (l : List (Bytes × Bytes)) :
    locksOnly fd (iterEvents l) = true := by
  induction l with
  | nil => rfl
  | cons hd tl ih => simp [iterEvents, locksOnly] at ih ⊢; exact ih

lemma firstTouchLocked_lock (fd : Nat) (tl : List Event) :
    firstTouchLocked (Event.lock fd :: tl) = true := rfl

lemma openCreate_trace (w0 : World) (fd cap : Nat) (fi : Bool) (pre : List Event) :
    (openCreate w0 fd cap fi pre).1 = pre ++ [Event.unlock fd] ∨
    (openCreate w0 fd cap fi pre).1 = pre ++ [Event.touch, Event.unlock fd] := by
  unfold openCreate
  split_ifs
  · exact Or.inl rfl
  · cases hr : (searchLoop (fun j => (w0.reg j).isSome) w0.htIdx maxHtMapEntries).1 <;>
      simp [hr]

lemma openCreate_locks (w0 : World) (fd cap : Nat) (fi : Bool) (tl : List Event) :
    firstTouchLocked (openCreate w0 fd cap fi (Event.lock fd :: tl)).1 = true ∧
    (heldAfter tl = 0 → heldAfter (openCreate w0 fd cap fi (Event.lock fd :: tl)).1 = 0) ∧
    (locksOnly fd tl = true →
      locksOnly fd (openCreate w0 fd cap fi (Event.lock fd :: tl)).1 = true) := by
  rcases openCreate_trace w0 fd cap fi (Event.lock fd :: tl) with h | h <;>
    rw [h] <;>
    refine ⟨rfl, fun h0 => ?_, fun hl => ?_⟩
  · simp [heldAfter, lockDelta] at h0 ⊢
    omega
  · simp [locksOnly] at hl ⊢
    exact hl
  · simp [heldAfter, lockDelta] at h0 ⊢
    omega
  · simp [locksOnly] at hl ⊢
    exact hl

/-- C4: open/validate, get, set, remove and foreach each acquire the
whole-file lock before any access of the shared mapping, every lock and unlock
of an operation targets the operation's one descriptor, and no path of any of
them, error paths included, returns while the lock is still held. -/
theorem C4_lock_discipline :
    (∀ w c fi,
       firstTouchLocked (shmhtOpenCore w c fi).1 = true ∧
       heldAfter (shmhtOpenCore w c fi).1 = 0 ∧
       locksOnly w.nextFd (shmhtOpenCore w c fi).1 = true) ∧
    (∀ w idx key,
       firstTouchLocked (shmhtGetval w idx key).1 = true ∧
       heldAfter (shmhtGetval w idx key).1 = 0 ∧
       locksOnly (opFd w idx) (shmhtGetval w idx key).1 = true) ∧
    (∀ w idx key value,
       firstTouchLocked (shmhtSetval w idx key value).1 = true ∧
       heldAfter (shmhtSetval w idx key value).1 = 0 ∧
       locksOnly (opFd w idx) (shmhtSetval w idx key value).1 = true) ∧
    (∀ w idx key,
       firstTouchLocked (shmhtRemove w idx key).1 = true ∧
       heldAfter (shmhtRemove w idx key).1 = 0 ∧
       locksOnly (opFd w idx) (shmhtRemove w idx key).1 = true) ∧
    (∀ w idx vis,
       firstTouchLocked (shmhtForeach w idx vis).1 = true ∧
       heldAfter (shmhtForeach w idx vis).1 = 0 ∧
       locksOnly (opFd w idx) (shmhtForeach w idx vis).1 = true) := by
  refine ⟨?_, ?_, ?_, ?_, ?_⟩
  · intro w c fi
    unfold shmhtOpenCore
    split_ifs with hA hB hC
    · exact ⟨rfl, by simp [heldAfter, lockDelta], by simp [locksOnly]⟩
    · have h := openCreate_locks { w with nextFd := w.nextFd + 1 } w.nextFd
        w.file.origCapacity fi [Event.touch]
      exact ⟨h.1, h.2.1 rfl, h.2.2 rfl⟩
    · have h := openCreate_locks { w with nextFd := w.nextFd + 1 } w.nextFd c fi [Event.touch]
      exact ⟨h.1, h.2.1 rfl, h.2.2 rfl⟩
    · have h := openCreate_locks { w with nextFd := w.nextFd + 1 } w.nextFd c fi []
      exact ⟨h.1, h.2.1 rfl, h.2.2 rfl⟩
  · intro w idx key
    cases h : regLookup w idx with
    | none => simp [shmhtGetval, h, firstTouchLocked, heldAfter, locksOnly]
    | some node =>
      cases hg : htGet w.file key <;>
        simp [shmhtGetval, h, hg, firstTouchLocked, heldAfter, lockDelta, locksOnly, opFd]
  · intro w idx key value
    cases h : regLookup w idx with
    | none => simp [shmhtSetval, h, firstTouchLocked, heldAfter, locksOnly]
    | some node =>
      simp [shmhtSetval, h, firstTouchLocked, heldAfter, lockDelta, locksOnly, opFd]
  · intro w idx key
    cases h : regLookup w idx with
    | none => simp [shmhtRemove, h, firstTouchLocked, heldAfter, locksOnly]
    | some node =>
      simp [shmhtRemove, h, firstTouchLocked, heldAfter, lockDelta, locksOnly, opFd]
  · intro w idx vis
    cases h : regLookup w idx with
    | none => simp [shmhtForeach, h, firstTouchLocked, heldAfter, locksOnly]
    | some node =>
      refine ⟨?_, ?_, ?_⟩
      · simp only [shmhtForeach, h]
        rfl
      · simp only [shmhtForeach, h]
        rw [heldAfter_append, heldAfter_append, heldAfter_iterEvents]
        simp [heldAfter, lockDelta]
      · simp only [shmhtForeach, h]
        rw [locksOnly_append, locksOnly_append, locksOnly_iterEvents]
        simp [locksOnly, opFd, h]

/-- C9: on the hit path of getval the whole-file lock is released first and
the returned byte string is only then constructed from the value pointer into
the shared mapping: the value copy is the last event of the trace, after the
unlock, and happens while no lock is held. -/
theorem C9_value_copied_after_unlock (w : World) (idx : Int) (node : MapNode)
    (key v : Bytes) (hn : regLookup w idx = some node)
    (hv : htGet w.file key = some v) :
    shmhtGetval w idx key =
      ([Event.lock node.fd, Event.touch, Event.unlock node.fd, Event.copyValueOut],
       Except.ok (some v)) ∧
    copyOutsideGuard (shmhtGetval w idx key).1 = true := by
  have ht : shmhtGetval w idx key =
      ([Event.lock node.fd, Event.touch, Event.unlock node.fd, Event.copyValueOut],
       Except.ok (some v)) := by
    unfold shmhtGetval
    rw [hn, hv]
  refine ⟨ht, ?_⟩
  rw [ht]
  simp [copyOutsideGuard, copyOutsideGuardAux, lockDelta]

/-- Witness for C9 at a concrete input: getting key `[1]` from the two-entry
table through handle 0 returns value `[10]` with the copy after the unlock. -/
theorem C9_value_copied_after_unlock_witness :
    shmhtGetval wOne 0 [1] =
      ([Event.lock 7, Event.touch, Event.unlock 7, Event.copyValueOut],
       Except.ok (some [10])) ∧
    copyOutsideGuard (shmhtGetval wOne 0 [1]).1 = true := by
  have h := C9_value_copied_after_unlock wOne 0 ⟨7, htMemorySize 2⟩ [1] [10]
    (by decide) (by decide)
  exact ⟨h.1, h.2⟩

/-- C1 (amended): for an open call with force_init false on a well-formed file
with a valid table header, a non-zero requested capacity exceeding the stored
capacity fails with the capacity-mismatch validation error; otherwise,
provided the registry slot search finds a free slot, the open succeeds with
the file's stored capacity as the table's capacity — the requested capacity is
ignored, the persisted file is unchanged, and the new registry node's mapping
size is computed from the stored capacity. -/
theorem C1_open_existing_table (w : World) (req : Nat)
    (hwf : WellFormed w.file) (hv : w.file.magicValid = true) :
    (req ≠ 0 ∧ w.file.origCapacity < req →
       (shmhtOpenCore w req false).2.2 =
         Except.error (ShmhtError.capacityMismatch req w.file.origCapacity) ∧
       (shmhtOpenCore w req false).2.1.file = w.file ∧
       (shmhtOpenCore w req false).2.1.reg = w.reg) ∧
    (∀ i, req = 0 ∨ req ≤ w.file.origCapacity →
       (searchLoop (fun j => (w.reg j).isSome) w.htIdx maxHtMapEntries).1 = some i →
       (shmhtOpenCore w req false).2.2 = Except.ok i ∧
       (shmhtOpenCore w req false).2.1.file = w.file ∧
       (shmhtOpenCore w req false).2.1.reg i =
         some ⟨w.nextFd, htMemorySize w.file.origCapacity⟩ ∧
       (∀ j, j ≠ i → (shmhtOpenCore w req false).2.1.reg j = w.reg j)) := by
  obtain ⟨hpos, hsize, hlen⟩ := hwf hv
  have hA : (false = false ∧ headerSize ≤ w.file.size) := by
    refine ⟨rfl, ?_⟩
    rw [hsize]
    exact Nat.le_add_right _ _
  have hB : htIsValid w.file = true := hv
  constructor
  · intro hmis
    unfold shmhtOpenCore
    rw [if_pos hA, if_pos hB, if_pos hmis]
    exact ⟨rfl, rfl, rfl⟩
  · intro i hcap hsearch
    have hmis : ¬(req ≠ 0 ∧ w.file.origCapacity < req) := by
      rcases hcap with h | h
      · exact fun hc => hc.1 h
      · exact fun hc => absurd h (Nat.not_le.mpr hc.2)
    unfold shmhtOpenCore
    rw [if_pos hA, if_pos hB, if_neg hmis]
    unfold openCreate
    rw [if_neg (Nat.pos_iff_ne_zero.mp hpos)]
    have hext : ¬(w.file.size < htMemorySize w.file.origCapacity) := by
      rw [hsize]
      exact lt_irrefl _
    have hini : htInit w.file w.file.origCapacity false = w.file := by
      unfold htInit
      rw [if_neg]
      simp [htIsValid, hv]
    simp only [if_neg hext, hini]
    rcases hres : searchLoop (fun j => (w.reg j).isSome) w.htIdx maxHtMapEntries
      with ⟨r1, r2⟩
    rw [hres] at hsearch
    simp only at hsearch
    simp only [hres, hsearch]
    refine ⟨by simp, by simp, by simp, ?_⟩
    intro j hj
    simp [hj]

/-- Witness for C1 at a concrete input: reopening the valid capacity-5 table
with requested capacity 3 and a free registry succeeds with handle 0 and keeps
the stored capacity; reopening it with requested capacity 9 fails with the
capacity-mismatch error. -/
theorem C1_open_existing_table_witness :
    (shmhtOpenCore wOne 9 false).2.2 =
      Except.error (ShmhtError.capacityMismatch 9 2) ∧
    (shmhtOpenCore wOne 1 false).2.2 = Except.ok 1 ∧
    (shmhtOpenCore wOne 1 false).2.1.file = wOne.file ∧
    (shmhtOpenCore wOne 1 false).2.1.reg 1 = some ⟨8, htMemorySize 2⟩ := by
  have ha := (C1_open_existing_table wOne 9 (fun _ => by decide) (by decide)).1 (by decide)
  have hb := (C1_open_existing_table wOne 1 (fun _ => by decide) (by decide)).2 1
    (by decide) (by decide)
  exact ⟨ha.1, hb.1, hb.2.1, hb.2.2.1⟩

/-- Counterexample to C1 as stated: on a process whose registry is exhausted,
an open with force_init false and requested capacity 0 on the same valid
well-formed capacity-5 table does not succeed but fails with the
registry-capacity error, so success does not follow from the header check
alone. -/
theorem C1_open_existing_table_cex :
    wFullValid.file.magicValid = true ∧ WellFormed wFullValid.file ∧
    (shmhtOpenCore wFullValid 0 false).2.2 = Except.error ShmhtError.registryFull := by
  exact ⟨rfl, fun _ => by decide, by decide⟩

/-- C2: failing-input exhibit for the registry search. The claim (and the
spec) say open fails with the registry-capacity error only when all 2048
slots are occupied, and that the round-robin search finds a free slot whenever
one exists.  In the code `count` is incremented both by the for-update and
inside the body (src/shmht.c lines 147-153), so the search probes only 1024
slots: with slots 0-1023 occupied, slots 1024-2047 free and the cursor at
2047, the search probes exactly slots 0-1023 and open fails with the
registry-capacity error although 1024 slots are free. -/
theorem C2_registry_scan_misses_free_slot :
    regHalf 1024 = none ∧
    (searchLoop (fun j => (regHalf j).isSome) 2047 maxHtMapEntries).1 = none ∧
    (shmhtOpenCore wHalf 4 false).2.2 = Except.error ShmhtError.registryFull := by
  exact ⟨rfl, by decide, by decide⟩

/-- C3: failing-input exhibit for foreach error propagation. The claim (and
the spec) say an exception raised by the visitor propagates to the caller of
foreach.  The code ignores the result of `PyEval_CallObject` (src/shmht.c line
314): with a visitor that raises on every entry of the two-entry table,
foreach still invokes the visitor on both entries, returns success (None) and
merely leaves the exception pending; the lock is released before returning. -/
theorem C3_foreach_ignores_visitor_error :
    (shmhtForeach wOne 0 failVisitor).2.2 = Except.ok () ∧
    (shmhtForeach wOne 0 failVisitor).2.1 = some (PyExc.exc 0) ∧
    visitorCallCount (shmhtForeach wOne 0 failVisitor).1 = 2 ∧
    heldAfter (shmhtForeach wOne 0 failVisitor).1 = 0 := by
  exact ⟨by decide, by decide, by decide, by decide⟩

/-- C8: open is not atomic with respect to the backing file: with force_init
true and an exhausted registry, open fails with the registry-capacity error
only after `ht_init` has already reinitialized the mapped file, so the
one-entry table's previous contents are discarded even though open reports an
error. -/
theorem C8_open_not_atomic :
    (shmhtOpenCore wFullOne 1 true).2.2 = Except.error ShmhtError.registryFull ∧
    (shmhtOpenCore wFullOne 1 true).2.1.file ≠ wFullOne.file ∧
    (shmhtOpenCore wFullOne 1 true).2.1.file.slots = [Slot.empty] ∧
    (shmhtOpenCore wFullOne 1 true).2.1.file.count = 0 ∧
    wFullOne.file.slots = [Slot.occupied [1] [2]] := by
  exact ⟨by decide, by decide, by decide, by decide, rfl⟩

/-- C10: the capacity argument is converted as a 32-bit signed int and then
used as an unsigned size: every negative in-range argument is not rejected but
becomes its reduction modulo 2^32 — a value of at least 2^31, in particular
non-zero — and the open call behaves exactly like an open with that large
unsigned capacity (whose required memory size is then computed from it). -/
theorem C10_negative_capacity_wraps (i : Int) (h1 : -(2 ^ 31) ≤ i) (h2 : i < 0) :
    parseCapacity i = (i + 2 ^ 32).toNat ∧
    2 ^ 31 ≤ parseCapacity i ∧
    parseCapacity i ≠ 0 ∧
    (∀ w fi, shmhtOpen w i fi = shmhtOpenCore w ((i + 2 ^ 32).toNat) fi) := by
  have hp31 : ((2 : Int) ^ 31) = 2147483648 := by norm_num
  have hp32 : ((2 : Int) ^ 32) = 4294967296 := by norm_num
  rw [hp31] at h1
  have hm : i % ((2 : Int) ^ 32) = i + 2 ^ 32 := by
    rw [hp32]
    omega
  have hpc : parseCapacity i = (i + 2 ^ 32).toNat := by
    unfold parseCapacity
    rw [hm]
  refine ⟨hpc, ?_, ?_, ?_⟩
  · rw [hpc]
    have hn31 : ((2 : Nat) ^ 31) = 2147483648 := by norm_num
    rw [hn31, hp32]
    omega
  · rw [hpc, hp32]
    omega
  · intro w fi
    unfold shmhtOpen
    rw [hpc]

/-- Witness for C10 at a concrete input: the capacity argument -1 is converted
to 4294967295 = 2^32 - 1. -/
theorem C10_negative_capacity_wraps_witness :
    parseCapacity (-1) = ((-1 : Int) + 2 ^ 32).toNat ∧
    2 ^ 31 ≤ parseCapacity (-1) ∧ parseCapacity (-1) ≠ 0 := by
  have h := C10_negative_capacity_wraps (-1) (by norm_num) (by norm_num)
  exact ⟨h.1, h.2.1, h.2.2.1⟩

end Shmht
